import Mathlib

/-!
Verification of the AmpliGraph repository fragments:
`ampligraph/datasets/source_identifier.py` and
`ampligraph/latent_features/layers/scoring/TransE.py`,
shallowly embedded in Lean 4.
-/

/-! ## Embedding of `source_identifier.py` -/

/-- The loader functions that appear in `source_identifier.py`.
`load_csv` is the pandas-backed CSV loader, `load_gz` and `load_tar`
are the compressed-file loaders whose bodies are `raise NotImplementedError`,
and `chunks` is the generator used for plain iterables.
The tags stand for the Python function objects stored in the
`supported_types` dictionary. -/
inductive Loader where
  | load_csv
  | load_gz
  | load_tar
  | chunks
deriving DecidableEq, Repr

/-- Whether invoking a loader unconditionally raises `NotImplementedError`:
the bodies of `load_gz` and `load_tar` are a single `raise NotImplementedError`
statement, while `load_csv` (pandas `read_csv`) and `chunks` return data. -/
def raisesNotImplemented : Loader → Bool
  | Loader.load_gz => true
  | Loader.load_tar => true
  | Loader.load_csv => false
  | Loader.chunks => false

/-- The `supported_types` dictionary built in `DataSourceIdentifier.__init__`:
`{"csv": load_csv, "txt": load_csv, "gz": load_csv, "tar": load_tar,
"iter": chunks}`. -/
def supported_types : List (List Char × Loader) :=
  [("csv".data, Loader.load_csv),
   ("txt".data, Loader.load_csv),
   ("gz".data, Loader.load_csv),
   ("tar".data, Loader.load_tar),
   ("iter".data, Loader.chunks)]

/-- Python `s.split(".")` restricted to a one-character separator, acting on
the character sequence of the string: splitting an empty string gives one
empty field, and every occurrence of the separator starts a new field. -/
def splitOnChar (sep : Char) (s : List Char) : List (List Char) :=
  List.foldr (fun c r => if c = sep then [] :: r else (c :: r.headI) :: r.tail) [[]] s

/-- A `data_source` argument as `_identify` distinguishes them: a string,
a non-string iterable (modelled by the list of elements it yields), or any
other object (neither a string nor iterable). -/
inductive DataSource (α : Type) where
  | str (s : String)
  | iterObj (elems : List α)
  | otherObj
deriving DecidableEq, Repr

/-- The `self.src` attribute after `DataSourceIdentifier._identify` has run.
`none` means the attribute was never assigned (the non-string non-iterable
branch only logs an error); `some v` means `self.src = v`, where `v = none`
models Python `None` and `v = some tag` a string tag.
For strings the code sets
`src = data_source.split(".")[-1] if "." in data_source else None`
and then resets it to `None` when the tag is not a key of
`supported_types`; a non-string iterable gets `src = "iter"`.
Strings are handled through their character sequences: the Python substring
test `"." in data_source` with a one-character needle is character
membership, and `split(".")[-1]` is the last field of `splitOnChar`. -/
def identifySrc {α : Type} (d : DataSource α) : Option (Option (List Char)) :=
  match d with
  | DataSource.str s =>
    let src0 : Option (List Char) :=
      if s.data.contains '.' then some ((splitOnChar '.' s.data).getLast!) else none
    match src0 with
    | some e =>
      if (supported_types.lookup e).isSome then some (some e) else some none
    | none => some none
  | DataSource.iterObj _ => some (some "iter".data)
  | DataSource.otherObj => none

/-- Method `DataSourceIdentifier.get_src`: returns `self.src`. Reading an attribute
that `_identify` never assigned raises `AttributeError`. -/
def get_src {α : Type} (d : DataSource α) : Except String (Option (List Char)) :=
  match identifySrc d with
  | none => Except.error "AttributeError"
  | some v => Except.ok v

/-- Method `DataSourceIdentifier.fetch_loader`: returns
`self.supported_types[self.src]`. An unassigned `self.src` raises
`AttributeError`; `self.src = None` or any tag missing from the dictionary
raises `KeyError`. -/
def fetch_loader {α : Type} (d : DataSource α) : Except String Loader :=
  match identifySrc d with
  | none => Except.error "AttributeError"
  | some none => Except.error "KeyError"
  | some (some e) =>
    match supported_types.lookup e with
    | some l => Except.ok l
    | none => Except.error "KeyError"

/-- The `chunks` generator: repeatedly takes one element off the iterator and
groups it with the next `chunk_size - 1` elements
(`chain([first], islice(iterator, chunk_size - 1))`), yielding each group. -/
def chunks {α : Type} (xs : List α) (chunk_size : Nat) : List (List α) :=
  match xs with
  | [] => []
  | x :: rest =>
    (x :: rest.take (chunk_size - 1)) :: chunks (rest.drop (chunk_size - 1)) chunk_size
termination_by xs.length
decreasing_by
  simp only [List.length_drop, List.length_cons]
  omega

/-! ## Embedding of `TransE.py`

Embedding vectors are lists of reals, batches are lists of row vectors.
`tf.norm` with its default Euclidean order is the L2 norm, taken here along
the last axis, exactly as `axis=1` on an `(n, k)` tensor and `axis=2` on an
`(n, m, k)` tensor. -/

/-- Elementwise `+` of two equally shaped embedding vectors. -/
def vadd (u v : List ℝ) : List ℝ := List.zipWith (fun a b => a + b) u v

/-- Elementwise `-` of two equally shaped embedding vectors. -/
def vsub (u v : List ℝ) : List ℝ := List.zipWith (fun a b => a - b) u v

/-- The `tf.norm` of one embedding row with the default Euclidean order:
the square root of the sum of squares. -/
noncomputable def l2norm (v : List ℝ) : ℝ := Real.sqrt ((v.map (fun x => x * x)).sum)

/-- Elementwise `+` of two `(n, k)` tensors. -/
def madd (a b : List (List ℝ)) : List (List ℝ) := List.zipWith vadd a b

/-- Elementwise `-` of two `(n, k)` tensors. -/
def msub (a b : List (List ℝ)) : List (List ℝ) := List.zipWith vsub a b

/-- Model of `tf.norm(t, axis=1)` on an `(n, k)` tensor: one L2 norm per row. -/
noncomputable def normAxis1 (m : List (List ℝ)) : List ℝ := m.map l2norm

/-- Score function `TransE._compute_scores`:
`tf.negative(tf.norm(triples[0] + triples[1] - triples[2], axis=1))`,
with `triples[0] = s`, `triples[1] = p`, `triples[2] = o`. -/
noncomputable def compute_scores (s p o : List (List ℝ)) : List ℝ :=
  (normAxis1 (msub (madd s p) o)).map (fun x => -x)

/-- The broadcast sum `ent_matrix + tf.expand_dims(res, 1)`:
an `(m, k)` tensor added to an `(n, 1, k)` tensor broadcasts to the
`(n, m, k)` tensor whose `(i, j)` row is `ent[j] + res[i]`. -/
def bcastAddEnt (ent res : List (List ℝ)) : List (List (List ℝ)) :=
  res.map (fun r => ent.map (fun c => vadd c r))

/-- The broadcast difference `tf.expand_dims(res, 1) - ent_matrix`:
an `(n, 1, k)` tensor minus an `(m, k)` tensor broadcasts to the
`(n, m, k)` tensor whose `(i, j)` row is `res[i] - ent[j]`. -/
def bcastSubEnt (res ent : List (List ℝ)) : List (List (List ℝ)) :=
  res.map (fun r => ent.map (fun c => vsub r c))

/-- Model of `tf.norm(t, axis=2)` on an `(n, m, k)` tensor: row norms along `k`. -/
noncomputable def normAxis2 (t : List (List (List ℝ))) : List (List ℝ) :=
  t.map normAxis1

/-- Model of `tf.negative` on an `(n, m)` tensor. -/
def mneg (m : List (List ℝ)) : List (List ℝ) := m.map (fun row => row.map (fun x => -x))

/-- Method `TransE._get_subject_corruption_scores`: with `rel_emb = triples[1]` and
`obj_emb = triples[2]`, computes
`tf.negative(tf.norm(ent_matrix + tf.expand_dims(rel_emb - obj_emb, 1), axis=2))`. -/
noncomputable def get_subject_corruption_scores (s p o ent : List (List ℝ)) :
    List (List ℝ) :=
  mneg (normAxis2 (bcastAddEnt ent (msub p o)))

/-- Method `TransE._get_object_corruption_scores`: with `sub_emb = triples[0]` and
`rel_emb = triples[1]`, computes
`tf.negative(tf.norm(tf.expand_dims(sub_emb + rel_emb, 1) - ent_matrix, axis=2))`. -/
noncomputable def get_object_corruption_scores (s p o ent : List (List ℝ)) :
    List (List ℝ) :=
  mneg (normAxis2 (bcastSubEnt (madd s p) ent))

/-! ## Helper lemmas -/

/-- Unfolding of `_identify` on a string input. -/
lemma identifySrc_str_eq {α : Type} (s : String) :
    identifySrc (DataSource.str (α := α) s) =
      if s.data.contains '.' then
        (if (supported_types.lookup ((splitOnChar '.' s.data).getLast!)).isSome
         then some (some ((splitOnChar '.' s.data).getLast!)) else some none)
      else some none := by
  by_cases h : s.data.contains '.' <;>
    simp only [identifySrc, h, if_true, if_false, Bool.false_eq_true]

lemma chunks_nil {α : Type} (c : Nat) : chunks ([] : List α) c = [] := by
  simp [chunks]

lemma chunks_cons {α : Type} (x : α) (rest : List α) (c : Nat) :
    chunks (x :: rest) c =
      (x :: rest.take (c - 1)) :: chunks (rest.drop (c - 1)) c := by
  rw [chunks]

lemma chunks_join {α : Type} (xs : List α) (c : Nat) :
    (chunks xs c).flatten = xs := by
  induction xs, c using chunks.induct with
  | case1 c => simp [chunks_nil]
  | case2 c x rest ih =>
    rw [chunks_cons, List.flatten_cons, ih]
    simp [List.take_append_drop]

lemma chunks_ne_nil_mem {α : Type} (xs : List α) (c : Nat) :
    ∀ l ∈ chunks xs c, l ≠ [] := by
  induction xs, c using chunks.induct with
  | case1 c => simp [chunks_nil]
  | case2 c x rest ih =>
    rw [chunks_cons]
    intro l hl
    rcases List.mem_cons.mp hl with h | h
    · rw [h]; exact List.cons_ne_nil x _
    · exact ih l h

lemma chunks_eq_nil_iff {α : Type} (xs : List α) (c : Nat) :
    chunks xs c = [] ↔ xs = [] := by
  cases xs with
  | nil => simp [chunks_nil]
  | cons x rest => rw [chunks_cons]; simp

lemma chunks_length_eq {α : Type} (xs : List α) (c : Nat) (hc : 1 ≤ c) :
    ∀ i, i + 1 < (chunks xs c).length → ((chunks xs c).getD i []).length = c := by
  revert hc
  induction xs, c using chunks.induct with
  | case1 c => simp [chunks_nil]
  | case2 c x rest ih =>
    intro hc i hi
    rw [chunks_cons] at hi ⊢
    cases i with
    | zero =>
      simp only [List.getD_cons_zero, List.length_cons]
      have hne : chunks (rest.drop (c - 1)) c ≠ [] := by
        intro h
        rw [h] at hi
        simp at hi
      have hdrop : rest.drop (c - 1) ≠ [] := by
        intro h
        exact hne ((chunks_eq_nil_iff _ _).mpr h)
      have hlen : c - 1 < rest.length := by
        by_contra h
        push_neg at h
        exact hdrop (List.drop_eq_nil_of_le h)
      rw [List.length_take]
      omega
    | succ j =>
      simp only [List.getD_cons_succ]
      exact ih hc j (by simpa using hi)

/-- A `zipWith` of two all-zero vectors by an operation fixing zero is
all-zero. -/
lemma zipWith_all_zero (f : ℝ → ℝ → ℝ) (hf : f 0 0 = 0) :
    ∀ (a b : List ℝ), (∀ x ∈ a, x = 0) → (∀ x ∈ b, x = 0) →
      ∀ x ∈ List.zipWith f a b, x = 0 := by
  intro a
  induction a with
  | nil => simp
  | cons y ys ih =>
    intro b ha hb
    cases b with
    | nil => simp
    | cons z zs =>
      intro x hx
      rw [List.zipWith_cons_cons] at hx
      rcases List.mem_cons.mp hx with h | h
      · rw [h, ha y (List.mem_cons_self y ys), hb z (List.mem_cons_self z zs), hf]
      · exact ih zs (fun u hu => ha u (List.mem_cons_of_mem _ hu))
          (fun u hu => hb u (List.mem_cons_of_mem _ hu)) x h

/-- Adding the same vector to subject and object rows cancels in the
TransE residual `s + p - o`. -/
lemma transe_residual_shift (si pi oi c : List ℝ)
    (hs : si.length = c.length) (hp : pi.length = c.length)
    (ho : oi.length = c.length) :
    vsub (vadd (vadd si c) pi) (vadd oi c) = vsub (vadd si pi) oi := by
  apply List.ext_getElem
  · simp only [vsub, vadd, List.length_zipWith]
    omega
  · intro i h1 h2
    simp only [vsub, vadd, List.getElem_zipWith]
    ring

/-! ## Claims about `source_identifier.py` -/

/-- C1 (counterexample): at the concrete path "data.gz", `fetch_loader`
returns `load_csv`, which does not raise `NotImplementedError`; the
`supported_types` dictionary maps "gz" to `load_csv`, not to `load_gz`, so
the claim that every "gz" path resolves to a not-implemented loader is
false. -/
theorem gz_loader_raises_cex :
    fetch_loader (DataSource.str (α := Int) "data.gz") = Except.ok Loader.load_csv ∧
      raisesNotImplemented Loader.load_csv = false :=
  ⟨rfl, rfl⟩

/-- C1 (amended): for every path string containing "." whose trailing
extension is "gz", `fetch_loader` returns the CSV loader `load_csv`, which
does not raise `NotImplementedError`; the not-implemented loaders are
bound to the "tar" key only. -/
theorem fetch_loader_gz_returns_load_csv (s : String)
    (hdot : s.data.contains '.' = true)
    (hext : (splitOnChar '.' s.data).getLast! = "gz".data) :
    fetch_loader (DataSource.str (α := Int) s) = Except.ok Loader.load_csv ∧
      raisesNotImplemented Loader.load_csv = false := by
  refine ⟨?_, rfl⟩
  simp only [fetch_loader, identifySrc_str_eq, hdot, hext, if_true]
  rfl

/-- Witness for C1 (amended) at the path "data.gz". -/
theorem fetch_loader_gz_returns_load_csv_witness :
    fetch_loader (DataSource.str (α := Int) "data.gz") = Except.ok Loader.load_csv ∧
      raisesNotImplemented Loader.load_csv = false :=
  fetch_loader_gz_returns_load_csv "data.gz" (by decide) (by decide)

/-- C2 (counterexample): for an input that is neither a string nor iterable,
`get_src` does not return the absent tag: `_identify` never assigns the
`src` attribute in that branch, so `get_src` raises `AttributeError`. -/
theorem get_src_nonIterable_cex :
    get_src (DataSource.otherObj (α := Int)) ≠ Except.ok none ∧
      get_src (DataSource.otherObj (α := Int)) = Except.error "AttributeError" :=
  ⟨fun h => Except.noConfusion h, rfl⟩

/-- C2 (amended): for an input object that is neither a string nor iterable,
constructing `DataSourceIdentifier` raises no exception (`_identify` only
logs an error and completes, leaving the `src` attribute unassigned), and
the failure surfaces later as an `AttributeError` when `get_src` or
`fetch_loader` is invoked. -/
theorem nonIterable_object_behavior :
    identifySrc (DataSource.otherObj (α := Int)) = none ∧
      get_src (DataSource.otherObj (α := Int)) = Except.error "AttributeError" ∧
      fetch_loader (DataSource.otherObj (α := Int)) = Except.error "AttributeError" :=
  ⟨rfl, rfl, rfl⟩

/-- C6: for every path string containing "." whose trailing extension is
"csv" or "txt", `fetch_loader` returns the CSV loader `load_csv`. -/
theorem fetch_loader_csv_txt_is_load_csv (s : String)
    (hdot : s.data.contains '.' = true)
    (hext : (splitOnChar '.' s.data).getLast! = "csv".data ∨
      (splitOnChar '.' s.data).getLast! = "txt".data) :
    fetch_loader (DataSource.str (α := Int) s) = Except.ok Loader.load_csv := by
  rcases hext with h | h <;>
  · simp only [fetch_loader, identifySrc_str_eq, hdot, h, if_true]
    rfl

/-- Witness for C6 at the path "data.csv". -/
theorem fetch_loader_csv_txt_is_load_csv_witness :
    fetch_loader (DataSource.str (α := Int) "data.csv") = Except.ok Loader.load_csv :=
  fetch_loader_csv_txt_is_load_csv "data.csv" (by decide) (Or.inl (by decide))

/-- C7: for every string input containing no "." character, the resolved
type tag is Python `None`. -/
theorem get_src_no_dot_none (s : String) (hdot : s.data.contains '.' = false) :
    get_src (DataSource.str (α := Int) s) = Except.ok none := by
  simp only [get_src, identifySrc_str_eq, hdot, Bool.false_eq_true, if_false]

/-- Witness for C7 at the dot-free string "datafile". -/
theorem get_src_no_dot_none_witness :
    get_src (DataSource.str (α := Int) "datafile") = Except.ok none :=
  get_src_no_dot_none "datafile" (by decide)

/-- C8: for every non-string iterable input, the resolved type tag is
"iter", the fetched loader is `chunks`, and for every chunk size of at
least one, `chunks` yields the elements of the iterable grouped in order
into arrays of the requested size (all full except possibly the last). -/
theorem iterable_resolves_to_chunks (xs : List Int) (c : Nat) (hc : 1 ≤ c) :
    get_src (DataSource.iterObj xs) = Except.ok (some "iter".data) ∧
      fetch_loader (DataSource.iterObj xs) = Except.ok Loader.chunks ∧
      (chunks xs c).flatten = xs ∧
      (∀ i, i + 1 < (chunks xs c).length → ((chunks xs c).getD i []).length = c) :=
  ⟨rfl, rfl, chunks_join xs c, chunks_length_eq xs c hc⟩

/-- Witness for C8 at the iterable `[1, 2, 3]` with chunk size 2. -/
theorem iterable_resolves_to_chunks_witness :
    1 ≤ 2 ∧
      (get_src (DataSource.iterObj [(1 : Int), 2, 3]) = Except.ok (some "iter".data) ∧
        fetch_loader (DataSource.iterObj [(1 : Int), 2, 3]) = Except.ok Loader.chunks ∧
        (chunks [(1 : Int), 2, 3] 2).flatten = [1, 2, 3] ∧
        (∀ i, i + 1 < (chunks [(1 : Int), 2, 3] 2).length →
          ((chunks [(1 : Int), 2, 3] 2).getD i []).length = 2)) :=
  ⟨by decide, iterable_resolves_to_chunks [1, 2, 3] 2 (by decide)⟩

/-- C9: for every finite iterable and chunk size of at least one, the
arrays yielded by `chunks` concatenate back to the original elements in
order, every yielded array is non-empty, and every yielded array except
possibly the last has length exactly the chunk size. -/
theorem chunks_partition_spec {α : Type} (xs : List α) (c : Nat) (hc : 1 ≤ c) :
    (chunks xs c).flatten = xs ∧
      (∀ l ∈ chunks xs c, l ≠ []) ∧
      (∀ i, i + 1 < (chunks xs c).length → ((chunks xs c).getD i []).length = c) :=
  ⟨chunks_join xs c, chunks_ne_nil_mem xs c, chunks_length_eq xs c hc⟩

/-- Witness for C9 at the list `[0, 1, 2, 3, 4]` with chunk size 2. -/
theorem chunks_partition_spec_witness :
    1 ≤ 2 ∧
      ((chunks [0, 1, 2, 3, 4] 2).flatten = [0, 1, 2, 3, 4] ∧
        (∀ l ∈ chunks [0, 1, 2, 3, 4] 2, l ≠ []) ∧
        (∀ i, i + 1 < (chunks [0, 1, 2, 3, 4] 2).length →
          ((chunks [0, 1, 2, 3, 4] 2).getD i []).length = 2)) :=
  ⟨by decide, chunks_partition_spec [0, 1, 2, 3, 4] 2 (by decide)⟩

/-- C10 (counterexample): the string "data.iter" resolves the type tag to
"iter", because "iter" is itself a key of `supported_types`; so it is false
that a string input can never resolve to the tag "iter". -/
theorem string_iter_extension_cex :
    get_src (DataSource.str (α := Int) "data.iter") = Except.ok (some "iter".data) :=
  rfl

/-- C10 (amended): for a string input the iterable branch is never taken:
the tag resolves to "iter" exactly when the string contains "." and its
trailing extension is the literal "iter" (a key of `supported_types`);
moreover every string whose trailing extension is not a supported key
resolves to the absent tag rather than to "iter". -/
theorem string_src_iter_characterization :
    (∀ (s : String), identifySrc (DataSource.str (α := Int) s) = some (some "iter".data) ↔
      (s.data.contains '.' = true ∧ (splitOnChar '.' s.data).getLast! = "iter".data)) ∧
    (∀ (s : String), s.data.contains '.' = true →
      supported_types.lookup ((splitOnChar '.' s.data).getLast!) = none →
      identifySrc (DataSource.str (α := Int) s) = some none) := by
  constructor
  · intro s
    rw [identifySrc_str_eq]
    by_cases hdot : s.data.contains '.'
    · rw [if_pos hdot]
      by_cases hl : (supported_types.lookup ((splitOnChar '.' s.data).getLast!)).isSome
      · rw [if_pos hl]
        constructor
        · intro h
          exact ⟨hdot, Option.some.inj (Option.some.inj h)⟩
        · intro h
          rw [h.2]
      · rw [if_neg hl]
        constructor
        · intro h
          exact absurd (Option.some.inj h) (by simp)
        · intro h
          exfalso
          rw [h.2] at hl
          exact hl (by rfl)
    · rw [if_neg hdot]
      constructor
      · intro h
        exact absurd (Option.some.inj h) (by simp)
      · intro h
        exact absurd h.1 (by simpa using hdot)
  · intro s hdot hl
    rw [identifySrc_str_eq, if_pos hdot, if_neg (by rw [hl]; exact Bool.false_ne_true ∘ id)]

/-! ## Claims about `TransE.py` -/

lemma subCorr_getD (res ent : List (List ℝ)) (i j : Nat)
    (hi : i < res.length) (hj : j < ent.length) :
    ((mneg (normAxis2 (bcastAddEnt ent res))).getD i []).getD j 0 =
      -(l2norm (vadd (ent.getD j []) (res.getD i []))) := by
  have h1 : i < (mneg (normAxis2 (bcastAddEnt ent res))).length := by
    simpa [mneg, normAxis2, bcastAddEnt] using hi
  rw [List.getD_eq_getElem _ _ h1]
  simp only [mneg, normAxis2, bcastAddEnt, List.getElem_map]
  rw [← List.getD_eq_getElem res [] hi]
  have h2 : j < ((normAxis1 (ent.map (fun c => vadd c (res.getD i [])))).map
      (fun x => -x)).length := by
    simpa [normAxis1] using hj
  rw [List.getD_eq_getElem _ _ h2]
  simp only [normAxis1, List.getElem_map]
  rw [List.getD_eq_getElem _ _ hj]

lemma objCorr_getD (res ent : List (List ℝ)) (i j : Nat)
    (hi : i < res.length) (hj : j < ent.length) :
    ((mneg (normAxis2 (bcastSubEnt res ent))).getD i []).getD j 0 =
      -(l2norm (vsub (res.getD i []) (ent.getD j []))) := by
  have h1 : i < (mneg (normAxis2 (bcastSubEnt res ent))).length := by
    simpa [mneg, normAxis2, bcastSubEnt] using hi
  rw [List.getD_eq_getElem _ _ h1]
  simp only [mneg, normAxis2, bcastSubEnt, List.getElem_map]
  rw [← List.getD_eq_getElem res [] hi]
  have h2 : j < ((normAxis1 (ent.map (fun c => vsub (res.getD i []) c))).map
      (fun x => -x)).length := by
    simpa [normAxis1] using hj
  rw [List.getD_eq_getElem _ _ h2]
  simp only [normAxis1, List.getElem_map]
  rw [List.getD_eq_getElem _ _ hj]

/-- C3: the positive score of row `i` equals the negated L2 norm of
`s + p - o` for that row, and a row whose three embeddings are all zero
scores exactly 0. -/
theorem transe_positive_score_rows (s p o : List (List ℝ))
    (hp : p.length = s.length) (ho : o.length = s.length)
    (i : Nat) (hi : i < s.length) :
    (compute_scores s p o).getD i 0 =
      -Real.sqrt (((vsub (vadd (s.getD i []) (p.getD i [])) (o.getD i [])).map
        (fun x => x * x)).sum) ∧
    ((∀ x ∈ s.getD i [], x = 0) → (∀ x ∈ p.getD i [], x = 0) →
      (∀ x ∈ o.getD i [], x = 0) → (compute_scores s p o).getD i 0 = 0) := by
  have hi2 : i < ((normAxis1 (msub (madd s p) o)).map (fun x => -x)).length := by
    simp only [List.length_map, normAxis1, msub, madd, List.length_zipWith]
    omega
  have hmain : (compute_scores s p o).getD i 0 =
      -Real.sqrt (((vsub (vadd (s.getD i []) (p.getD i [])) (o.getD i [])).map
        (fun x => x * x)).sum) := by
    rw [compute_scores, List.getD_eq_getElem _ _ hi2]
    simp only [List.getElem_map, normAxis1, l2norm]
    congr 2
    simp only [msub, madd, List.getElem_zipWith]
    rw [List.getD_eq_getElem _ _ hi, List.getD_eq_getElem _ _ (by omega : i < p.length),
      List.getD_eq_getElem _ _ (by omega : i < o.length)]
  refine ⟨hmain, fun hs0 hp0 ho0 => ?_⟩
  rw [hmain]
  have hall : ∀ x ∈ vsub (vadd (s.getD i []) (p.getD i [])) (o.getD i []), x = 0 := by
    apply zipWith_all_zero (fun a b => a - b) (by ring)
    · exact zipWith_all_zero (fun a b => a + b) (by ring) _ _ hs0 hp0
    · exact ho0
  have hsum : ((vsub (vadd (s.getD i []) (p.getD i [])) (o.getD i [])).map
      (fun x => x * x)).sum = 0 := by
    apply List.sum_eq_zero
    intro x hx
    rcases List.mem_map.mp hx with ⟨y, hy, rfl⟩
    rw [hall y hy]
    ring
  rw [hsum, Real.sqrt_zero, neg_zero]

/-- Witness for C3 on the one-triple batch with zero embeddings of
dimensionality one. -/
theorem transe_positive_score_rows_witness :
    ((compute_scores [[(0:ℝ)]] [[0]] [[0]]).getD 0 0 =
      -Real.sqrt (((vsub (vadd (([[(0:ℝ)]] : List (List ℝ)).getD 0 [])
        (([[(0:ℝ)]] : List (List ℝ)).getD 0 []))
        (([[(0:ℝ)]] : List (List ℝ)).getD 0 [])).map (fun x => x * x)).sum) ∧
    ((∀ x ∈ ([[(0:ℝ)]] : List (List ℝ)).getD 0 [], x = 0) →
      (∀ x ∈ ([[(0:ℝ)]] : List (List ℝ)).getD 0 [], x = 0) →
      (∀ x ∈ ([[(0:ℝ)]] : List (List ℝ)).getD 0 [], x = 0) →
      (compute_scores [[(0:ℝ)]] [[0]] [[0]]).getD 0 0 = 0)) :=
  transe_positive_score_rows [[0]] [[0]] [[0]] rfl rfl 0 (by decide)

/-- C4: for a batch of `n` triples and `m` candidate entity vectors, both
corruption score matrices have shape `(n, m)`, with entry `(i, j)` equal to
the negated L2 norm of `c_j + (p_i - o_i)` for subject corruption and of
`(s_i + p_i) - c_j` for object corruption. -/
theorem transe_corruption_score_matrix (s p o ent : List (List ℝ)) (n m : Nat)
    (hs : s.length = n) (hp : p.length = n) (ho : o.length = n) (he : ent.length = m) :
    (get_subject_corruption_scores s p o ent).length = n ∧
      (∀ row ∈ get_subject_corruption_scores s p o ent, row.length = m) ∧
      (get_object_corruption_scores s p o ent).length = n ∧
      (∀ row ∈ get_object_corruption_scores s p o ent, row.length = m) ∧
      (∀ i j, i < n → j < m →
        ((get_subject_corruption_scores s p o ent).getD i []).getD j 0 =
          -(l2norm (vadd (ent.getD j []) (vsub (p.getD i []) (o.getD i []))))) ∧
      (∀ i j, i < n → j < m →
        ((get_object_corruption_scores s p o ent).getD i []).getD j 0 =
          -(l2norm (vsub (vadd (s.getD i []) (p.getD i [])) (ent.getD j [])))) := by
  refine ⟨?_, ?_, ?_, ?_, ?_, ?_⟩
  · simp only [get_subject_corruption_scores, mneg, normAxis2, bcastAddEnt, msub,
      List.length_map, List.length_zipWith]
    omega
  · intro row hrow
    simp only [get_subject_corruption_scores, mneg, normAxis2, bcastAddEnt,
      List.map_map] at hrow
    rcases List.mem_map.mp hrow with ⟨r, hr, rfl⟩
    simp only [Function.comp, normAxis1, List.length_map]
    exact he
  · simp only [get_object_corruption_scores, mneg, normAxis2, bcastSubEnt, madd,
      List.length_map, List.length_zipWith]
    omega
  · intro row hrow
    simp only [get_object_corruption_scores, mneg, normAxis2, bcastSubEnt,
      List.map_map] at hrow
    rcases List.mem_map.mp hrow with ⟨r, hr, rfl⟩
    simp only [Function.comp, normAxis1, List.length_map]
    exact he
  · intro i j hi hj
    rw [get_subject_corruption_scores,
      subCorr_getD (msub p o) ent i j (by simp [msub, List.length_zipWith]; omega) (by omega)]
    congr 2
    have hip : i < p.length := by omega
    have hio : i < o.length := by omega
    have him : i < (msub p o).length := by simp [msub, List.length_zipWith]; omega
    rw [List.getD_eq_getElem _ _ him, List.getD_eq_getElem _ _ hip,
      List.getD_eq_getElem _ _ hio]
    simp only [msub, List.getElem_zipWith]
  · intro i j hi hj
    rw [get_object_corruption_scores,
      objCorr_getD (madd s p) ent i j (by simp [madd, List.length_zipWith]; omega) (by omega)]
    congr 2
    have his : i < s.length := by omega
    have hip : i < p.length := by omega
    have him : i < (madd s p).length := by simp [madd, List.length_zipWith]; omega
    rw [List.getD_eq_getElem _ _ him, List.getD_eq_getElem _ _ his,
      List.getD_eq_getElem _ _ hip]
    simp only [madd, List.getElem_zipWith]

/-- Witness for C4 on a one-triple batch of zero embeddings against two
candidate vectors. -/
theorem transe_corruption_score_matrix_witness :
    (get_subject_corruption_scores [[(0:ℝ)]] [[0]] [[0]] [[0], [1]]).length = 1 ∧
      (∀ row ∈ get_subject_corruption_scores [[(0:ℝ)]] [[0]] [[0]] [[0], [1]],
        row.length = 2) ∧
      (get_object_corruption_scores [[(0:ℝ)]] [[0]] [[0]] [[0], [1]]).length = 1 ∧
      (∀ row ∈ get_object_corruption_scores [[(0:ℝ)]] [[0]] [[0]] [[0], [1]],
        row.length = 2) ∧
      (∀ i j, i < 1 → j < 2 →
        ((get_subject_corruption_scores [[(0:ℝ)]] [[0]] [[0]] [[0], [1]]).getD i
          []).getD j 0 =
          -(l2norm (vadd (([[(0:ℝ)], [1]] : List (List ℝ)).getD j [])
            (vsub (([[(0:ℝ)]] : List (List ℝ)).getD i [])
              (([[(0:ℝ)]] : List (List ℝ)).getD i []))))) ∧
      (∀ i j, i < 1 → j < 2 →
        ((get_object_corruption_scores [[(0:ℝ)]] [[0]] [[0]] [[0], [1]]).getD i
          []).getD j 0 =
          -(l2norm (vsub (vadd (([[(0:ℝ)]] : List (List ℝ)).getD i [])
            (([[(0:ℝ)]] : List (List ℝ)).getD i []))
            (([[(0:ℝ)], [1]] : List (List ℝ)).getD j [])))) :=
  transe_corruption_score_matrix [[0]] [[0]] [[0]] [[0], [1]] 1 2 rfl rfl rfl rfl

/-- C5: adding one constant vector to every subject and object embedding
leaves the positive scores unchanged, while adding a nonzero constant
vector to the predicate embeddings alone can change them. -/
theorem transe_translation_consistency :
    (∀ (s p o : List (List ℝ)) (c : List ℝ),
      (∀ r ∈ s, r.length = c.length) → (∀ r ∈ p, r.length = c.length) →
      (∀ r ∈ o, r.length = c.length) →
      compute_scores (s.map (fun r => vadd r c)) p (o.map (fun r => vadd r c)) =
        compute_scores s p o) ∧
    (∃ (s p o : List (List ℝ)) (c : List ℝ),
      c ≠ List.replicate c.length 0 ∧
      compute_scores s (p.map (fun r => vadd r c)) o ≠ compute_scores s p o) := by
  constructor
  · intro s p o c hs hp ho
    apply List.ext_getElem
    · simp only [compute_scores, normAxis1, msub, madd, List.length_map,
        List.length_zipWith]
    · intro i h1 h2
      simp only [compute_scores, normAxis1, msub, madd, List.getElem_map,
        List.getElem_zipWith]
      congr 1
      congr 1
      refine transe_residual_shift _ _ _ c (hs _ (List.getElem_mem _))
        (hp _ (List.getElem_mem _)) (ho _ (List.getElem_mem _))
  · refine ⟨[[0]], [[0]], [[0]], [1], ?_, ?_⟩
    · norm_num
    · intro heq
      have h1 : compute_scores [[(0:ℝ)]] ([[(0:ℝ)]].map (fun r => vadd r [(1:ℝ)])) [[0]] =
          [-1] := by
        norm_num [compute_scores, normAxis1, msub, madd, vadd, vsub, l2norm,
          Real.sqrt_one]
      have h2 : compute_scores [[(0:ℝ)]] [[(0:ℝ)]] [[0]] = [0] := by
        norm_num [compute_scores, normAxis1, msub, madd, vadd, vsub, l2norm,
          Real.sqrt_zero]
      rw [h1, h2] at heq
      norm_num at heq
